import Mathlib

/-!
Shallow embedding of the core of the `grab` crawling framework, together
with theorems checking the natural-language specification against the code.

Covered source files:
* `grab/grab.py` — the `Grab` HTTP client (config merging, request
  preparation, the redirect loop, cloning, pickling).
* `grab/spider/queue_backend/memory.py` — the in-memory priority +
  scheduled task queue.
* `grab/spider/service/task_dispatcher.py` — the result-classification
  dispatcher.
* `grab/util/http.py` — `merge_with_dict`.

Parts of the repository that are referenced by the sources above but whose
files were not provided (`grab/request.py`, `grab/util/cookies.py`,
`grab/document.py`, the `Task` class) are modelled from the specification;
each such definition is marked `Modelled from the spec:` in its doc comment.
-/

/-! ## Configuration values

Python configuration dictionaries hold heterogeneous values; we model the
values the client code inspects as an inductive with Python truthiness. -/

/-- A value stored in a grab request-configuration dictionary. `vnone`
is Python `None`. -/
inductive CfgVal
  | vnone
  | vstr (s : String)
  | vbool (b : Bool)
  | vnat (n : Nat)
  deriving DecidableEq, Repr

/-- Python truthiness of a configuration value: `None`, `""`, `False`
and `0` are falsy. -/
def CfgVal.truthy : CfgVal → Bool
  | .vnone => false
  | .vstr s => !(s == "")
  | .vbool b => b
  | .vnat n => !(n == 0)

/-- String content of a configuration value (`""` for non-strings). -/
def CfgVal.as_string : CfgVal → String
  | .vstr s => s
  | _ => ""

/-- A Python dictionary of configuration values, modelled as an
association list with at most one binding per key (first binding wins,
as `List.lookup` does). -/
abbrev GrabConfig := List (String × CfgVal)

/-- Dictionary read with `None` default: `cfg.get(key)` semantics used
throughout the embedding. -/
def cfg_get (cfg : GrabConfig) (key : String) : CfgVal :=
  (cfg.lookup key).getD .vnone

/-- Dictionary write `cfg[key] = v`: replace the binding if the key is
present, else append a new binding. -/
def dict_set (cfg : GrabConfig) (key : String) (v : CfgVal) : GrabConfig :=
  if cfg.any (fun p => p.1 == key) then
    cfg.map (fun p => if p.1 == key then (key, v) else p)
  else
    cfg ++ [(key, v)]

/-! ## Request (`grab/request.py` is not part of the provided sources) -/

/-- Modelled from the spec: the closed set of recognized request
configuration keys (`Request.init_keys`); the spec lists exactly these
request keys. -/
def Request.init_keys : List String :=
  ["url", "method", "headers", "body", "cookies", "proxy", "proxy_type",
   "proxy_userpwd", "follow_location", "redirect_limit", "timeout",
   "connect_timeout", "user_agent"]

/-- Modelled from the spec: the system default redirect limit (a
non-negative integer whose concrete value the spec leaves unspecified;
any fixed value works for the claims below). -/
def default_redirect_limit : Nat := 10

/-- Modelled from the spec: a `Request` value as far as the redirect loop
inspects it — an absolute `url`, a `method` (default `GET`), a
`follow_location` flag (default true) and a non-negative
`redirect_limit`. -/
structure Request where
  url : String
  method : String
  follow_location : Bool
  redirect_limit : Nat
  deriving DecidableEq, Repr

/-- Modelled from the spec: `Request.create_from_mapping` builds a
`Request` from a fully merged configuration dictionary. -/
def Request.create_from_mapping (cfg : GrabConfig) : Request :=
  { url := (cfg_get cfg "url").as_string
    method := (cfg_get cfg "method").as_string
    follow_location := (cfg_get cfg "follow_location").truthy
    redirect_limit :=
      match cfg_get cfg "redirect_limit" with
      | .vnat n => n
      | _ => default_redirect_limit }

/-! ## Errors of the client -/

/-- Error taxonomy of the client: `GrabMisuseError`,
`GrabTooManyRedirectsError`, and a transport failure (the transport ran
out of scripted responses in this embedding). -/
inductive GrabError
  | misuse (msg : String)
  | too_many_redirects
  | transport_failure
  deriving DecidableEq, Repr

/-! ## Document (`grab/document.py` is not part of the provided sources) -/

/-- Modelled from the spec: a response `Document` as far as the redirect
loop inspects it — the HTTP status `code`, the `Location` header
(`none` when absent) and the response `body`. -/
structure Document where
  code : Nat
  location : Option String
  body : String
  deriving DecidableEq, Repr

/-- Truthiness of a header lookup: absent (`None`) and the empty string
are falsy. -/
def location_truthy : Option String → Bool
  | none => false
  | some s => !(s == "")

/-- Embedding of `Grab.find_redirect_url`: for a redirect status code
with a truthy `Location` header, return the (possibly relative)
redirect target. -/
def find_redirect_url (doc : Document) : Option String :=
  if (doc.code == 301 || doc.code == 302 || doc.code == 303 ||
      doc.code == 307 || doc.code == 308) && location_truthy doc.location
  then doc.location
  else none

/-! ## Grab.merge_request_configs and Grab.prepare_request -/

/-- Embedding of `Grab.merge_request_configs`: reject the first unknown
key with a misuse error, then widen the dictionary so that every
recognized key is bound (unset keys bound to `None`). -/
def merge_request_configs (request_config : GrabConfig) :
    Except GrabError GrabConfig :=
  match request_config.find? (fun p => !(Request.init_keys.contains p.1)) with
  | some p => .error (.misuse ("Invalid request parameter: " ++ p.1))
  | none =>
      .ok (Request.init_keys.map
        (fun k => (k, (request_config.lookup k).getD .vnone)))

/-- Embedding of `Grab.prepare_request`: merge configs, require a URL,
default the method to `GET` and `follow_location` to true, and build the
`Request`.  The session-cookie side effect of the source method is not
modelled here (no claim depends on it). -/
def prepare_request (request_config : GrabConfig) : Except GrabError Request :=
  match merge_request_configs request_config with
  | .error e => .error e
  | .ok cfg =>
      if cfg_get cfg "url" = .vnone then
        .error (.misuse "Request URL must be set")
      else
        let cfg1 := if (cfg_get cfg "method").truthy then cfg
                    else dict_set cfg "method" (.vstr "GET")
        let cfg2 := if cfg_get cfg1 "follow_location" = .vnone then
                      dict_set cfg1 "follow_location" (.vbool true)
                    else cfg1
        .ok (Request.create_from_mapping cfg2)

/-! ## Grab.request

The transport is modelled as a scripted list of `Document`s, one per
loop iteration, and URL resolution (`urllib.parse.urljoin`) as an
abstract function parameter `uj`.  The loop result carries the final
document together with the URL of the request that produced it. -/

/-- Embedding of the redirect loop inside `Grab.request`: consume one
scripted response per iteration; on a redirect (when following is on),
bump the counter, fail past the limit, resolve the `Location` against
the current request URL, rebuild the request from the updated kwargs and
loop; otherwise return the document. -/
def request_loop (uj : String → String → String) (kwargs : GrabConfig)
    (req : Request) (redir_count : Nat) :
    List Document → Except GrabError (Document × String)
  | [] => .error .transport_failure
  | doc :: rest =>
      match find_redirect_url doc with
      | some redir_url =>
          if req.follow_location then
            if req.redirect_limit < redir_count + 1 then
              .error .too_many_redirects
            else
              let kwargs1 := dict_set kwargs "url" (.vstr (uj req.url redir_url))
              match prepare_request kwargs1 with
              | .error e => .error e
              | .ok req1 => request_loop uj kwargs1 req1 (redir_count + 1) rest
          else .ok (doc, req.url)
      | none => .ok (doc, req.url)

/-- Embedding of `Grab.request` (keyword-config entry point): prepare
the request, then run the redirect loop over the scripted transport
responses. -/
def grab_request (uj : String → String → String) (kwargs : GrabConfig)
    (responses : List Document) : Except GrabError (Document × String) :=
  match prepare_request kwargs with
  | .error e => .error e
  | .ok req => request_loop uj kwargs req 0 responses

/-- A request configuration carrying a URL, explicit
`follow_location = True` and an explicit redirect limit. -/
def request_cfg (u : String) (L : Nat) : GrabConfig :=
  [("url", .vstr u), ("follow_location", .vbool true),
   ("redirect_limit", .vnat L)]

/-! ## Memory queue backend (`grab/spider/queue_backend/memory.py`)

Tasks are modelled as natural numbers: `queue.PriorityQueue` stores
`(priority, task)` pairs and pops the smallest entry under the ordering
of the entries, so the entries must carry a total order; `Nat` plays the
role of any such ordered task type.  Wall-clock instants are `Nat`. -/

/-- State of the in-memory queue backend: the `PriorityQueue` contents
(a multiset of `(priority, task)` entries, kept as a list) and the
`schedule_list` of `(schedule_time, task)` pairs. -/
structure MemQueue where
  queue_object : List (Nat × Nat)
  schedule_list : List (Nat × Nat)
  deriving DecidableEq, Repr

/-- The freshly constructed backend: empty priority queue, empty
schedule list. -/
def memq_init : MemQueue := ⟨[], []⟩

/-- Lexicographic order on `(priority, task)` entries — the order under
which `queue.PriorityQueue` retrieves its lowest entry. -/
def entry_le (a b : Nat × Nat) : Bool :=
  decide (a.1 < b.1) || (decide (a.1 = b.1) && decide (a.2 ≤ b.2))

/-- Model of `PriorityQueue.get`: remove and return a least entry (the
contract of the standard-library priority queue). -/
def popMin : List (Nat × Nat) → Option ((Nat × Nat) × List (Nat × Nat))
  | [] => none
  | e :: rest =>
      match popMin rest with
      | none => some (e, [])
      | some (m, rest1) =>
          if entry_le e m then some (e, rest) else some (m, e :: rest1)

/-- Embedding of `QueueBackend.put`: with no `schedule_time`, push
`(priority, task)` onto the priority queue; otherwise append
`(schedule_time, task)` to the schedule list (the priority argument is
dropped). -/
def MemQueue.put (s : MemQueue) (task priority : Nat)
    (schedule_time : Option Nat) : MemQueue :=
  match schedule_time with
  | none => { s with queue_object := s.queue_object ++ [(priority, task)] }
  | some t => { s with schedule_list := s.schedule_list ++ [(t, task)] }

/-- The priority-queue contents after `get` has promoted every overdue
scheduled entry at priority 1. -/
def MemQueue.promoted_queue (now : Nat) (s : MemQueue) : List (Nat × Nat) :=
  s.queue_object ++
    (s.schedule_list.filter (fun e => decide (e.1 ≤ now))).map
      (fun e => (1, e.2))

/-- Embedding of `QueueBackend.get`: promote every scheduled entry with
`schedule_time ≤ now` into the priority queue at priority 1, drop them
from the schedule list, then pop the least queue entry; `none` is the
raised `Empty` (the mutated state survives the raise, as it does on the
Python object). -/
def MemQueue.get (s : MemQueue) (now : Nat) : Option Nat × MemQueue :=
  let q1 := MemQueue.promoted_queue now s
  let sched := s.schedule_list.filter (fun e => !(decide (e.1 ≤ now)))
  match popMin q1 with
  | none => (none, ⟨q1, sched⟩)
  | some (e, rest) => (some e.2, ⟨rest, sched⟩)

/-- Embedding of `QueueBackend.size`: queue size plus schedule-list
length. -/
def MemQueue.size (s : MemQueue) : Nat :=
  s.queue_object.length + s.schedule_list.length

/-- An operation of an interleaving run against the queue backend. -/
inductive QOp
  | put_op (task priority : Nat) (schedule_time : Option Nat)
  | get_op (now : Nat)
  deriving DecidableEq, Repr

/-- Run a list of operations against a backend state, counting `put`s
and successful `get`s. -/
def run_ops : MemQueue → Nat → Nat → List QOp → MemQueue × Nat × Nat
  | s, puts, gets, [] => (s, puts, gets)
  | s, puts, gets, .put_op t p st :: rest =>
      run_ops (s.put t p st) (puts + 1) gets rest
  | s, puts, gets, .get_op now :: rest =>
      match s.get now with
      | (some _, s1) => run_ops s1 puts (gets + 1) rest
      | (none, s1) => run_ops s1 puts gets rest

/-! ## Task dispatcher (`grab/spider/service/task_dispatcher.py`)

The `isinstance` chain of `process_service_result` is modelled as a match
on a tagged value covering the runtime shapes the code distinguishes;
side effects are recorded as a list of effect descriptions, and raised
exceptions as `Except` errors. -/

/-- Modelled from the spec: a spider `Task` as far as the dispatcher
inspects it — a handler `name` and the `raw` flag read by
`task.get("raw")`; `clone()` returns an independent copy. -/
structure SpTask where
  name : String
  raw : Bool
  deriving DecidableEq, Repr

/-- Modelled from the spec: `Task.clone` returns an independent copy of
the task. -/
def SpTask.clone (t : SpTask) : SpTask := t

/-- A network-response record (the `{ok, …, grab, grab_config_backup}`
dictionary) as far as `process_network_result` inspects it: the `ok`
flag and the response code `result["grab"].doc.code`. -/
structure NetworkRecord where
  ok : Bool
  code : Nat
  deriving DecidableEq, Repr

/-- The spider collaborators the dispatcher calls out to:
`network_try_limit`, the response-code validator, and handler-name
lookup (`find_task_handler` followed by `getattr(handler, "__name__",
"NONE")`). -/
structure SpiderCtx where
  network_try_limit : Nat
  is_valid_network_response_code : Nat → SpTask → Bool
  find_task_handler_name : SpTask → String

/-- The `meta` dictionary delivered with a service result: the optional
`"exc_info"` and `"from"` entries. -/
structure MetaInfo where
  exc_info : Option String := none
  source : Option String := none

/-- The runtime shapes the dispatcher's `isinstance` chain
distinguishes: a `Task`, `None`, a `ResponseNotValid` exception, a
`FatalError` exception, any other exception, a dictionary (with or
without a `"grab"` key), and any other object. -/
inductive ServiceResult
  | task_result (t : SpTask)
  | none_result
  | response_not_valid (cls_name : String)
  | fatal_error_exc (cls_name : String)
  | other_exception (cls_name : String)
  | dict_result (has_grab : Bool) (net : NetworkRecord)
  | other_object (descr : String)
  deriving Repr

/-- One observable side effect of the dispatcher: a spider call or a
queue/stat mutation. -/
inductive DispatchEffect
  | add_task (t : SpTask)
  | stat_inc (label : String)
  | process_parser_error (handler_name : String) (t : Option SpTask)
      (exc_info : String)
  | fatal_queue_put (exc_info : String)
  | log_network_result_stats
  | log_failed_network_result
  | parser_input_put (net : NetworkRecord) (t : SpTask)
  | setup_grab_config (t : SpTask)
  deriving DecidableEq, Repr

/-- An exception raised (not merely reported) by the dispatcher. -/
inductive DispatchError
  | spider_error
  | key_error (key : String)
  | attribute_error (attr : String)
  deriving DecidableEq, Repr

/-- Handler-name resolution in the exception branch: `find_task_handler`
plus the `"NA"` fallback for a falsy task. -/
def dispatch_handler_name (sp : SpiderCtx) (task : Option SpTask) : String :=
  match task with
  | some t => sp.find_task_handler_name t
  | none => "NA"

/-- Embedding of `TaskDispatcherService.process_network_result`: log
stats, compute validity (`raw` bypasses code checks, otherwise `ok` and
the spider's code check), then either forward to the parser input or log
the failure and, with a positive `network_try_limit`, restore the config
backup and re-enqueue; always increment `spider:request`. -/
def process_network_result (sp : SpiderCtx) (net : NetworkRecord)
    (task : Option SpTask) : Except DispatchError (List DispatchEffect) :=
  match task with
  | none => .error (.attribute_error "get")
  | some t =>
      let is_valid :=
        if t.raw then true
        else net.ok && sp.is_valid_network_response_code net.code t
      if is_valid then
        .ok [.log_network_result_stats, .parser_input_put net t,
             .stat_inc "spider:request"]
      else
        .ok ([.log_network_result_stats, .log_failed_network_result] ++
          (if 0 < sp.network_try_limit then
            [.setup_grab_config t, .add_task t]
          else []) ++ [.stat_inc "spider:request"])

/-- Embedding of `TaskDispatcherService.process_service_result`: the
`isinstance` chain over the result, in source order — `Task`, `None`,
`ResponseNotValid`, any `Exception` (with the `FatalError` refinement),
a dictionary containing `"grab"`, and the final `SpiderError` raise. -/
def process_service_result (sp : SpiderCtx) (result : ServiceResult)
    (task : Option SpTask) (meta : MetaInfo) :
    Except DispatchError (List DispatchEffect) :=
  match result with
  | .task_result t => .ok [.add_task t]
  | .none_result => .ok []
  | .response_not_valid cls_name =>
      match task with
      | none => .error (.attribute_error "clone")
      | some t =>
          .ok [.add_task t.clone,
               .stat_inc ("integrity:" ++ cls_name.replace "_" "-")]
  | .fatal_error_exc _ =>
      match meta.exc_info with
      | none => .error (.key_error "exc_info")
      | some info =>
          .ok [.process_parser_error (dispatch_handler_name sp task) task info,
               .fatal_queue_put info]
  | .other_exception _ =>
      match meta.exc_info with
      | none => .error (.key_error "exc_info")
      | some info =>
          .ok [.process_parser_error (dispatch_handler_name sp task) task info]
  | .dict_result has_grab net =>
      if has_grab then process_network_result sp net task
      else .error .spider_error
  | .other_object _ => .error .spider_error

/-! ## Cookies, the session jar, cloning and pickling (`grab/grab.py`,
`grab/util/cookies.py`)

`grab/util/cookies.py` is not part of the provided sources; `build_jar`
is modelled from the spec.  The `http.cookiejar.CookieJar` is modelled
as a list of cookie records with replacement keyed by
`(domain, path, name)`, as the spec describes the jar. -/

/-- A cookie record; the spec keys jar entries by `(domain, path,
name)` and compares serialised cookies by `(domain, path, name,
value)`. -/
structure Cookie where
  name : String
  value : String
  domain : String
  path : String
  secure : Bool
  http_only : Bool
  deriving DecidableEq, Repr

/-- The jar key of a cookie. -/
def cookie_key (c : Cookie) : String × String × String :=
  (c.domain, c.path, c.name)

/-- The identity of a serialised cookie: `(domain, path, name,
value)`. -/
def cookie_quad (c : Cookie) : String × String × String × String :=
  (c.domain, c.path, c.name, c.value)

/-- `CookieJar.set_cookie`: insertion replaces an existing entry with
the same `(domain, path, name)` key. -/
def set_cookie (jar : List Cookie) (c : Cookie) : List Cookie :=
  jar.filter (fun c2 => !(decide (cookie_key c2 = cookie_key c))) ++ [c]

/-- Modelled from the spec: `build_jar(list)` reconstructs a jar from a
flat cookie list by inserting each cookie in turn. -/
def build_jar (items : List Cookie) : List Cookie :=
  items.foldl set_cookie []

/-- A jar is well formed when no two entries share a `(domain, path,
name)` key — the invariant `set_cookie` maintains. -/
def jar_wf (jar : List Cookie) : Prop :=
  jar.Pairwise (fun a b => cookie_key a ≠ cookie_key b)

/-- Embedding of `copy_config`: a fresh dictionary whose entries are
copies of the original entries (configuration values are immutable in
this model, so copying a value is the identity on it). -/
def copy_config (config : GrabConfig) : GrabConfig :=
  config.map (fun p => (p.1, p.2))

/-- The mutable state of one `Grab` object: its `config` dictionary and
its cookie jar (the `transport` slot carries no state the claims
inspect). -/
structure GrabObj where
  config : GrabConfig
  cookies : List Cookie
  deriving DecidableEq, Repr, Inhabited

/-! ### A heap of Grab objects

Aliasing claims (clone independence) need explicit object identity:
the Python heap is a list of `GrabObj`s and a client is a reference
(index) into it.  Mutation updates the heap at one index. -/

/-- Embedding of `Grab.clone` over the object heap: allocate a fresh
object whose config is `copy_config` of the original and whose jar is
`build_jar(list(self.cookies))`; return the new heap and the fresh
reference. -/
def heap_clone (heap : List GrabObj) (i : Nat) : List GrabObj × Nat :=
  let g := heap.getD i default
  (heap ++ [{ config := copy_config g.config,
              cookies := build_jar g.cookies }], heap.length)

/-- Mutation of a client's jar through its reference:
`self.cookies.set_cookie(c)`. -/
def heap_set_cookie (heap : List GrabObj) (i : Nat) (c : Cookie) :
    List GrabObj :=
  let g := heap.getD i default
  heap.set i { g with cookies := set_cookie g.cookies c }

/-- Mutation of a client's config through its reference: one step of
`Grab.setup` — set the key when it is already present in the config,
else leave the heap unchanged (the source raises a misuse error before
mutating). -/
def heap_setup (heap : List GrabObj) (i : Nat) (key : String) (v : CfgVal) :
    List GrabObj :=
  let g := heap.getD i default
  if g.config.any (fun p => p.1 == key) then
    heap.set i { g with config := dict_set g.config key v }
  else heap

/-! ### Pickling (`Grab.__getstate__` / `Grab.__setstate__`) -/

/-- A value stored in a pickled `Grab` state dictionary. -/
inductive SlotVal
  | config_val (c : GrabConfig)
  | transport_val
  | cookies_items (l : List Cookie)
  deriving DecidableEq, Repr

/-- Read a pickled value back as a config (dynamic typing: a mismatched
kind yields the empty config; the round trip never hits this case). -/
def SlotVal.as_config : SlotVal → GrabConfig
  | .config_val c => c
  | _ => []

/-- Read a pickled value back as a cookie list (dynamic typing: a
mismatched kind yields the empty list; the round trip never hits this
case). -/
def SlotVal.as_cookie_list : SlotVal → List Cookie
  | .cookies_items l => l
  | _ => []

/-- Embedding of `Grab.__getstate__`: iterate `__slots__ = ("config",
"transport", "cookies")`, replacing the `cookies` slot by the flattened
`_cookies_items` list. -/
def grab_getstate (g : GrabObj) : List (String × SlotVal) :=
  [("config", .config_val g.config), ("transport", .transport_val),
   ("_cookies_items", .cookies_items g.cookies)]

/-- Assignment of one pickled slot (`setattr`); the `transport` slot
carries no modelled state. -/
def set_slot (g : GrabObj) (key : String) (v : SlotVal) : GrabObj :=
  if key = "config" then { g with config := v.as_config }
  else if key = "cookies" then { g with cookies := v.as_cookie_list }
  else g

/-- Embedding of `Grab.__setstate__`: for each state entry,
`_cookies_items` rebuilds the jar through `build_jar`; a key in
`__slots__` is assigned; any other key raises `ValueError`. -/
def grab_setstate (g : GrabObj) :
    List (String × SlotVal) → Except String GrabObj
  | [] => .ok g
  | (key, v) :: rest =>
      if key = "_cookies_items" then
        grab_setstate { g with cookies := build_jar v.as_cookie_list } rest
      else if key = "config" ∨ key = "transport" ∨ key = "cookies" then
        grab_setstate (set_slot g key v) rest
      else
        .error ("Key " ++ key ++ " is not in __slots__")

/-! ## merge_with_dict (`grab/util/http.py`) -/

/-- Header containers accepted by `merge_with_dict`: a sequence of
`(key, value)` pairs, or a mapping (modelled as an association list with
dictionary update semantics). -/
inductive HttpHeaders
  | pairs_seq (l : List (String × String))
  | mapping (m : List (String × String))
  deriving DecidableEq, Repr

/-- Dictionary write for string maps: replace the binding if present,
else append. -/
def dict_set_str (m : List (String × String)) (k v : String) :
    List (String × String) :=
  if m.any (fun p => p.1 == k) then
    m.map (fun p => if p.1 == k then (k, v) else p)
  else m ++ [(k, v)]

/-- The merged pair list the sequence branch of `merge_with_dict`
builds into its local `ret`: the surviving `hdr1` pairs followed by the
`hdr2` entries whose keys are admitted. -/
def merged_pairs (hdr1 hdr2 : List (String × String)) (replace : Bool) :
    List (String × String) :=
  let hdr2_keys := hdr2.map (fun p => p.1)
  let kept := hdr1.filter (fun kv => !replace || !(hdr2_keys.contains kv.1))
  let hdr1_keys := kept.map (fun p => p.1)
  kept ++ hdr2.filter (fun kv => replace || !(hdr1_keys.contains kv.1))

/-- Embedding of `merge_with_dict`: the first component is the
function's return value (the source has no `return` statement, so it is
always `none`); the second is `hdr1` after the call.  The mapping branch
updates `hdr1` in place; the sequence branch computes `merged_pairs`
into a local and drops it. -/
def merge_with_dict (hdr1 : HttpHeaders) (hdr2 : List (String × String))
    (replace : Bool) : Option (List (String × String)) × HttpHeaders :=
  match hdr1 with
  | .mapping m =>
      let m2 := hdr2.foldl
        (fun acc kv =>
          if replace || !(acc.any (fun p => p.1 == kv.1)) then
            dict_set_str acc kv.1 kv.2
          else acc) m
      (none, .mapping m2)
  | .pairs_seq l =>
      let ret := merged_pairs l hdr2 replace
      (none, .pairs_seq (id l))

/-! ## Helper lemmas about the priority-queue model -/

theorem popMin_eq_none {l : List (Nat × Nat)} :
    popMin l = none ↔ l = [] := by
  constructor
  · intro h
    cases l with
    | nil => rfl
    | cons e rest =>
        simp only [popMin] at h
        cases hr : popMin rest with
        | none => simp [hr] at h
        | some m =>
            obtain ⟨m0, rest1⟩ := m
            simp only [hr] at h
            by_cases hle : entry_le e m0 <;> simp [hle] at h
  · rintro rfl
    rfl

theorem popMin_mem {l : List (Nat × Nat)} {m : Nat × Nat}
    {rest : List (Nat × Nat)} (h : popMin l = some (m, rest)) : m ∈ l := by
  induction l generalizing m rest with
  | nil => simp [popMin] at h
  | cons e tl ih =>
      simp only [popMin] at h
      cases hr : popMin tl with
      | none =>
          simp only [hr] at h
          injection h with h1
          injection h1 with h2 _
          simp [h2]
      | some p =>
          obtain ⟨m0, rest1⟩ := p
          simp only [hr] at h
          by_cases hle : entry_le e m0
          · simp only [hle, if_true] at h
            injection h with h1
            injection h1 with h2 _
            simp [h2]
          · simp only [hle, if_false, Bool.false_eq_true] at h
            injection h with h1
            injection h1 with h2 _
            have := ih hr
            subst h2
            simp [List.mem_cons, this]

theorem popMin_cover {l : List (Nat × Nat)} {m e : Nat × Nat}
    {rest : List (Nat × Nat)} (hmem : e ∈ l)
    (h : popMin l = some (m, rest)) : e = m ∨ e ∈ rest := by
  induction l generalizing m rest with
  | nil => simp at hmem
  | cons a tl ih =>
      simp only [popMin] at h
      cases hr : popMin tl with
      | none =>
          have htl : tl = [] := popMin_eq_none.mp hr
          subst htl
          simp only [hr] at h
          injection h with h1
          injection h1 with h2 h3
          simp only [List.mem_singleton] at hmem
          subst h2
          exact Or.inl hmem
      | some p =>
          obtain ⟨m0, rest1⟩ := p
          simp only [hr] at h
          by_cases hle : entry_le a m0
          · simp only [hle, if_true] at h
            injection h with h1
            injection h1 with h2 h3
            subst h2; subst h3
            rcases List.mem_cons.mp hmem with h4 | h4
            · exact Or.inl h4
            · exact Or.inr h4
          · simp only [hle, if_false, Bool.false_eq_true] at h
            injection h with h1
            injection h1 with h2 h3
            subst h2; subst h3
            rcases List.mem_cons.mp hmem with h4 | h4
            · exact Or.inr (by simp [h4])
            · rcases ih h4 hr with h5 | h5
              · exact Or.inl h5
              · exact Or.inr (by simp [h5])

theorem popMin_length {l : List (Nat × Nat)} {m : Nat × Nat}
    {rest : List (Nat × Nat)} (h : popMin l = some (m, rest)) :
    rest.length + 1 = l.length := by
  induction l generalizing m rest with
  | nil => simp [popMin] at h
  | cons e tl ih =>
      simp only [popMin] at h
      cases hr : popMin tl with
      | none =>
          have htl : tl = [] := popMin_eq_none.mp hr
          subst htl
          simp only [hr] at h
          injection h with h1
          injection h1 with _ h3
          subst h3
          rfl
      | some p =>
          obtain ⟨m0, rest1⟩ := p
          simp only [hr] at h
          by_cases hle : entry_le e m0
          · simp only [hle, if_true] at h
            injection h with h1
            injection h1 with _ h3
            subst h3
            rfl
          · simp only [hle, if_false, Bool.false_eq_true] at h
            injection h with h1
            injection h1 with _ h3
            subst h3
            have := ih hr
            simp only [List.length_cons]
            omega

theorem filter_length_split {α : Type} (p : α → Bool) (l : List α) :
    (l.filter p).length + (l.filter (fun a => !(p a))).length = l.length := by
  induction l with
  | nil => rfl
  | cons a tl ih =>
      by_cases hp : p a <;> simp [List.filter, hp, ← ih] <;> omega

/-! ## Queue-backend step lemmas -/

theorem memqueue_put_size (s : MemQueue) (t p : Nat) (st : Option Nat) :
    (s.put t p st).size = s.size + 1 := by
  cases st <;> simp [MemQueue.put, MemQueue.size] <;> omega

theorem memqueue_get_size_some {s : MemQueue} {now x : Nat}
    (h : (s.get now).1 = some x) : (s.get now).2.size + 1 = s.size := by
  have hsplit := filter_length_split (fun e => decide (e.1 ≤ now))
    s.schedule_list
  cases hpop : popMin (MemQueue.promoted_queue now s) with
  | none => simp [MemQueue.get, hpop] at h
  | some p =>
      obtain ⟨e, rest⟩ := p
      have hlen := popMin_length hpop
      simp only [MemQueue.promoted_queue, List.length_append,
        List.length_map] at hlen
      simp only [MemQueue.get, hpop, MemQueue.size]
      omega

theorem memqueue_get_size_none {s : MemQueue} {now : Nat}
    (h : (s.get now).1 = none) : (s.get now).2.size = s.size := by
  have hsplit := filter_length_split (fun e => decide (e.1 ≤ now))
    s.schedule_list
  cases hpop : popMin (MemQueue.promoted_queue now s) with
  | none =>
      simp only [MemQueue.get, hpop, MemQueue.size]
      simp only [MemQueue.promoted_queue, List.length_append,
        List.length_map]
      omega
  | some p =>
      obtain ⟨e, rest⟩ := p
      simp [MemQueue.get, hpop] at h

theorem run_ops_size_aux (ops : List QOp) :
    ∀ (s : MemQueue) (puts gets : Nat),
      (run_ops s puts gets ops).1.size + (run_ops s puts gets ops).2.2 + puts
        = s.size + gets + (run_ops s puts gets ops).2.1 := by
  induction ops with
  | nil => intro s puts gets; simp [run_ops]
  | cons op rest ih =>
      intro s puts gets
      cases op with
      | put_op t p st =>
          have hput := memqueue_put_size s t p st
          have := ih (s.put t p st) (puts + 1) gets
          simp only [run_ops]
          omega
      | get_op now =>
          cases hget : s.get now with
          | mk r s1 =>
              cases r with
              | some x =>
                  have hsz : s1.size + 1 = s.size := by
                    have hh : (s.get now).1 = some x := by rw [hget]
                    have h2 := memqueue_get_size_some hh
                    rw [hget] at h2
                    exact h2
                  have := ih s1 puts (gets + 1)
                  simp only [run_ops, hget]
                  omega
              | none =>
                  have hsz : s1.size = s.size := by
                    have hh : (s.get now).1 = none := by rw [hget]
                    have h2 := memqueue_get_size_none hh
                    rw [hget] at h2
                    exact h2
                  have := ih s1 puts gets
                  simp only [run_ops, hget]
                  omega

/-! ## Claim theorems for the queue backend -/

/-- C2 (counterexample): two tasks put at equal priority with no
schedule time are not returned in put order — task `5` is put first and
task `3` second, yet the first `get` returns `3`. -/
theorem equal_priority_fifo_counterexample :
    (((memq_init.put 5 1 none).put 3 1 none).get 0).1 = some 3 ∧
    (((memq_init.put 5 1 none).put 3 1 none).get 0).1 ≠ some 5 := by
  decide

/-- C2 (amended): the ready heap is keyed by `(priority, task)` — there
is no insertion sequence number — so of two tasks put with equal
priority and no schedule time, `get` returns the smaller task first,
regardless of the order in which they were put. -/
theorem equal_priority_order_by_task (p t1 t2 now : Nat) :
    ((memq_init.put t1 p none).put t2 p none).get now
      = (some (min t1 t2), ⟨[(p, max t1 t2)], []⟩) := by
  by_cases h : t1 ≤ t2
  · simp [memq_init, MemQueue.put, MemQueue.get, MemQueue.promoted_queue,
      popMin, entry_le, h, Nat.min_eq_left h, Nat.max_eq_right h]
  · have h2 : t2 ≤ t1 := Nat.le_of_not_le h
    simp [memq_init, MemQueue.put, MemQueue.get, MemQueue.promoted_queue,
      popMin, entry_le, h, Nat.min_eq_right h2, Nat.max_eq_left h2]

/-- C3: a task scheduled for time `t` is never returned by `get` before
`now ≥ t`; every overdue scheduled entry is promoted into the ready heap
at priority 1 (its original priority is not even recorded) and leaves
the schedule list; and `get` yields `Empty` exactly when the heap is
empty after promotion. -/
theorem scheduled_promotion_spec (s : MemQueue) (now : Nat) :
    ((s.get now).2.schedule_list
        = s.schedule_list.filter (fun e => !(decide (e.1 ≤ now))))
    ∧ (∀ t x, (t, x) ∈ s.schedule_list → now < t →
        x ∉ s.queue_object.map (fun e => e.2) →
        (∀ e ∈ s.schedule_list, e.2 = x → now < e.1) →
        (s.get now).1 ≠ some x)
    ∧ (∀ e ∈ s.schedule_list, e.1 ≤ now →
        (s.get now).1 = some e.2 ∨ (1, e.2) ∈ (s.get now).2.queue_object)
    ∧ ((s.get now).1 = none ↔ MemQueue.promoted_queue now s = []) := by
  refine ⟨?_, ?_, ?_, ?_⟩
  · cases hpop : popMin (MemQueue.promoted_queue now s) with
    | none => simp [MemQueue.get, hpop]
    | some p => obtain ⟨e, rest⟩ := p; simp [MemQueue.get, hpop]
  · intro t x hmem hlt hq hsched hcontra
    cases hpop : popMin (MemQueue.promoted_queue now s) with
    | none => simp [MemQueue.get, hpop] at hcontra
    | some p =>
        obtain ⟨e, rest⟩ := p
        simp only [MemQueue.get, hpop] at hcontra
        injection hcontra with hx
        have hin : e ∈ MemQueue.promoted_queue now s := popMin_mem hpop
        simp only [MemQueue.promoted_queue, List.mem_append,
          List.mem_map, List.mem_filter] at hin
        rcases hin with hin | ⟨a, ⟨hains, hale⟩, hae⟩
        · exact hq (List.mem_map.mpr ⟨e, hin, hx⟩)
        · have hax : a.2 = x := by
            have : e.2 = x := hx
            rw [← hae] at this
            exact this
          have := hsched a hains hax
          have hle : a.1 ≤ now := of_decide_eq_true hale
          omega
  · intro e hmem hle
    have hin : (1, e.2) ∈ MemQueue.promoted_queue now s := by
      simp only [MemQueue.promoted_queue, List.mem_append, List.mem_map,
        List.mem_filter]
      exact Or.inr ⟨e, ⟨hmem, decide_eq_true hle⟩, rfl⟩
    cases hpop : popMin (MemQueue.promoted_queue now s) with
    | none =>
        have := popMin_eq_none.mp hpop
        rw [this] at hin
        simp at hin
    | some p =>
        obtain ⟨m, rest⟩ := p
        rcases popMin_cover hin hpop with hcase | hcase
        · left
          simp [MemQueue.get, hpop, ← hcase]
        · right
          simp [MemQueue.get, hpop, hcase]
  · cases hpop : popMin (MemQueue.promoted_queue now s) with
    | none => simp [MemQueue.get, hpop, popMin_eq_none.mp hpop, popMin]
    | some p =>
        obtain ⟨e, rest⟩ := p
        constructor
        · intro hcontra
          simp [MemQueue.get, hpop] at hcontra
        · intro hempty
          rw [hempty] at hpop
          simp [popMin] at hpop

/-- Witness for C3 at a concrete state: with the queue holding task `7`
at priority 2, task `9` scheduled for time 5 and task `4` scheduled for
time 0, a `get` at time 3 does not return `9`, and the overdue task `4`
is either returned or sits in the heap at priority 1. -/
theorem scheduled_promotion_spec_witness :
    (((⟨[(2, 7)], [(5, 9), (0, 4)]⟩ : MemQueue).get 3).1 ≠ some 9) ∧
    ((((⟨[(2, 7)], [(5, 9), (0, 4)]⟩ : MemQueue).get 3).1 = some 4) ∨
      (1, 4) ∈ (((⟨[(2, 7)], [(5, 9), (0, 4)]⟩ : MemQueue).get 3).2.queue_object)) :=
  ⟨(scheduled_promotion_spec ⟨[(2, 7)], [(5, 9), (0, 4)]⟩ 3).2.1 5 9
      (by decide) (by decide) (by decide) (by decide),
   (scheduled_promotion_spec ⟨[(2, 7)], [(5, 9), (0, 4)]⟩ 3).2.2.1 (0, 4)
      (by decide) (by decide)⟩

/-- C5: over any interleaving of `put` and `get` starting from the
fresh backend, `size()` equals the number of `put`s minus the number of
successful `get`s; and `size()` is by construction the ready-heap size
plus the scheduled-list length. -/
theorem queue_size_counts (ops : List QOp) :
    (((run_ops memq_init 0 0 ops).1.size : ℤ)
        = ((run_ops memq_init 0 0 ops).2.1 : ℤ)
          - ((run_ops memq_init 0 0 ops).2.2 : ℤ))
    ∧ ∀ s : MemQueue,
        s.size = s.queue_object.length + s.schedule_list.length := by
  constructor
  · have := run_ops_size_aux ops memq_init 0 0
    have hinit : memq_init.size = 0 := rfl
    omega
  · intro s; rfl

/-! ## Claim theorems for the task dispatcher -/

/-- C4: the dispatcher's classification is total over the documented
result shapes — a `Task` is enqueued, `None` is dropped, a
`ResponseNotValid` re-enqueues a clone with an integrity stat increment,
any other exception (delivered, as documented, with `exc_info` in its
meta) triggers parser-error reporting (plus the fatal channel for a
`FatalError`), a network-response record is handed to
`process_network_result`, and every other value raises `SpiderError`. -/
theorem dispatcher_classification_total (sp : SpiderCtx)
    (task : Option SpTask) (meta : MetaInfo) :
    (∀ t, process_service_result sp (.task_result t) task meta
        = .ok [.add_task t])
    ∧ (process_service_result sp .none_result task meta = .ok [])
    ∧ (∀ cls t0, task = some t0 →
        process_service_result sp (.response_not_valid cls) task meta
          = .ok [.add_task t0.clone,
                 .stat_inc ("integrity:" ++ cls.replace "_" "-")])
    ∧ (∀ cls info, meta.exc_info = some info →
        process_service_result sp (.other_exception cls) task meta
          = .ok [.process_parser_error (dispatch_handler_name sp task)
                   task info])
    ∧ (∀ cls info, meta.exc_info = some info →
        process_service_result sp (.fatal_error_exc cls) task meta
          = .ok [.process_parser_error (dispatch_handler_name sp task)
                   task info, .fatal_queue_put info])
    ∧ (∀ net, process_service_result sp (.dict_result true net) task meta
        = process_network_result sp net task)
    ∧ (∀ net, process_service_result sp (.dict_result false net) task meta
        = .error .spider_error)
    ∧ (∀ d, process_service_result sp (.other_object d) task meta
        = .error .spider_error) := by
  refine ⟨fun t => rfl, rfl, ?_, ?_, ?_, fun net => rfl, fun net => rfl,
    fun d => rfl⟩
  · intro cls t0 ht
    subst ht
    rfl
  · intro cls info hinfo
    simp [process_service_result, hinfo]
  · intro cls info hinfo
    simp [process_service_result, hinfo]

/-- Witness for C4 at concrete inputs: a `ResponseNotValid` named
`Err_A` on a concrete task re-enqueues its clone and increments the
`integrity:Err-A` stat, and an ordinary exception with `exc_info`
present reports a parser error. -/
theorem dispatcher_classification_total_witness :
    (process_service_result ⟨1, fun _ _ => true, fun _ => "handler"⟩
        (.response_not_valid "Err_A") (some ⟨"t", false⟩)
        ⟨some "trace", some "parser"⟩
      = .ok [.add_task (SpTask.clone ⟨"t", false⟩),
             .stat_inc ("integrity:" ++ "Err_A".replace "_" "-")])
    ∧ (process_service_result ⟨1, fun _ _ => true, fun _ => "handler"⟩
        (.other_exception "ValueError") (some ⟨"t", false⟩)
        ⟨some "trace", some "parser"⟩
      = .ok [.process_parser_error
               (dispatch_handler_name ⟨1, fun _ _ => true, fun _ => "handler"⟩
                 (some ⟨"t", false⟩)) (some ⟨"t", false⟩) "trace"]) :=
  ⟨(dispatcher_classification_total ⟨1, fun _ _ => true, fun _ => "handler"⟩
      (some ⟨"t", false⟩) ⟨some "trace", some "parser"⟩).2.2.1
      "Err_A" ⟨"t", false⟩ rfl,
   (dispatcher_classification_total ⟨1, fun _ _ => true, fun _ => "handler"⟩
      (some ⟨"t", false⟩) ⟨some "trace", some "parser"⟩).2.2.2.1
      "ValueError" "trace" rfl⟩

/-- C10: for a result that is an exception but not `ResponseNotValid`,
the dispatcher reads `meta["exc_info"]` unconditionally — when the meta
mapping lacks `exc_info` the call raises `KeyError` (not `SpiderError`,
and without classifying the result) — and its behaviour never consults
`meta["from"]`. -/
theorem dispatcher_exc_info_key_error (sp : SpiderCtx)
    (task : Option SpTask) (meta : MetaInfo) (cls : String) :
    (meta.exc_info = none →
      process_service_result sp (.other_exception cls) task meta
          = .error (.key_error "exc_info")
        ∧ process_service_result sp (.fatal_error_exc cls) task meta
          = .error (.key_error "exc_info"))
    ∧ (∀ s1 s2 : Option String,
        process_service_result sp (.other_exception cls) task
            ⟨meta.exc_info, s1⟩
          = process_service_result sp (.other_exception cls) task
            ⟨meta.exc_info, s2⟩) := by
  constructor
  · intro hnone
    constructor <;> simp [process_service_result, hnone]
  · intro s1 s2
    rfl

/-- Witness for C10: a `RuntimeError`-shaped exception delivered with a
meta mapping that lacks `exc_info` (and whose `from` is not `parser`)
raises `KeyError("exc_info")`. -/
theorem dispatcher_exc_info_key_error_witness :
    process_service_result ⟨0, fun _ _ => false, fun _ => "h"⟩
        (.other_exception "RuntimeError") (some ⟨"t", false⟩)
        ⟨none, some "network"⟩
      = .error (.key_error "exc_info") :=
  ((dispatcher_exc_info_key_error ⟨0, fun _ _ => false, fun _ => "h"⟩
      (some ⟨"t", false⟩) ⟨none, some "network"⟩ "RuntimeError").1 rfl).1

/-! ## Claim theorem for merge_with_dict -/

/-- C9: when `merge_with_dict` receives a sequence of pairs rather than
a mapping, it returns `None` and leaves the sequence unchanged — the
merged list it computes into `ret` is discarded (at a concrete input the
discarded merge differs from the untouched sequence). -/
theorem merge_with_dict_seq_noop :
    (∀ (l hdr2 : List (String × String)) (replace : Bool),
      merge_with_dict (.pairs_seq l) hdr2 replace = (none, .pairs_seq l))
    ∧ merged_pairs [] [("a", "b")] false = [("a", "b")]
    ∧ merge_with_dict (.pairs_seq []) [("a", "b")] false
        = (none, .pairs_seq []) := by
  exact ⟨fun l hdr2 replace => rfl, rfl, rfl⟩

/-! ## Helper lemmas for the client claims -/

theorem prepare_request_cfg (u : String) (L : Nat) :
    prepare_request (request_cfg u L) = .ok ⟨u, "GET", true, L⟩ := rfl

theorem dict_set_request_cfg (u v : String) (L : Nat) :
    dict_set (request_cfg u L) "url" (.vstr v) = request_cfg v L := rfl

theorem request_loop_chain (uj : String → String → String) (L : Nat)
    (final : Document) (hfin : find_redirect_url final = none) :
    ∀ (rds : List Document) (u : String) (n : Nat),
      (∀ d ∈ rds, (find_redirect_url d).isSome = true) →
      ((n + rds.length ≤ L →
          request_loop uj (request_cfg u L) ⟨u, "GET", true, L⟩ n
              (rds ++ [final])
            = .ok (final, rds.foldl
                (fun acc d => uj acc ((find_redirect_url d).getD "")) u))
        ∧ (rds ≠ [] → L < n + rds.length →
          request_loop uj (request_cfg u L) ⟨u, "GET", true, L⟩ n
              (rds ++ [final])
            = .error .too_many_redirects)) := by
  intro rds
  induction rds with
  | nil =>
      intro u n _
      constructor
      · intro _
        simp [request_loop, hfin]
      · intro hne
        exact absurd rfl hne
  | cons d tl ih =>
      intro u n hall
      have hd : (find_redirect_url d).isSome = true := hall d (by simp)
      obtain ⟨loc, hloc⟩ : ∃ loc, find_redirect_url d = some loc :=
        Option.isSome_iff_exists.mp hd
      have htl : ∀ d2 ∈ tl, (find_redirect_url d2).isSome = true :=
        fun d2 h2 => hall d2 (by simp [h2])
      constructor
      · intro hle
        have hcount : ¬ (L < n + 1) := by
          simp only [List.length_cons] at hle
          omega
        simp only [List.cons_append, request_loop, hloc]
        rw [if_pos trivial, if_neg hcount, dict_set_request_cfg,
          prepare_request_cfg]
        have := (ih (uj u loc) (n + 1) htl).1
          (by simp only [List.length_cons] at hle; omega)
        simp only [List.foldl_cons, hloc]
        exact this
      · intro _ hgt
        by_cases hlim : L < n + 1
        · simp only [List.cons_append, request_loop, hloc]
          rw [if_pos trivial, if_pos hlim]
        · have htlne : tl ≠ [] := by
            intro hnil
            subst hnil
            simp only [List.length_cons, List.length_nil] at hgt
            omega
          simp only [List.cons_append, request_loop, hloc]
          rw [if_pos trivial, if_neg hlim, dict_set_request_cfg,
            prepare_request_cfg]
          exact (ih (uj u loc) (n + 1) htl).2 htlne
            (by simp only [List.length_cons] at hgt; omega)

/-! ## Claim theorems for the client request path -/

/-- C1: with `follow_location` true, a request whose transport yields
`k` redirect responses followed by a non-redirect returns the final
document when `k ≤ redirect_limit` and raises `TooManyRedirects` when
`k > redirect_limit`; on success the final request URL is each hop's
`Location` resolved (via the URL-join function) against the pre-redirect
request URL in turn. -/
theorem redirect_chain_bounded (uj : String → String → String)
    (u : String) (L : Nat) (rds : List Document) (final : Document)
    (hall : ∀ d ∈ rds, (find_redirect_url d).isSome = true)
    (hfin : find_redirect_url final = none) :
    grab_request uj (request_cfg u L) (rds ++ [final])
      = if rds.length ≤ L
        then .ok (final, rds.foldl
            (fun acc d => uj acc ((find_redirect_url d).getD "")) u)
        else .error .too_many_redirects := by
  have h := request_loop_chain uj L final hfin rds u 0 hall
  by_cases hle : rds.length ≤ L
  · rw [if_pos hle]
    have := h.1 (by omega)
    simpa [grab_request, prepare_request_cfg] using this
  · rw [if_neg hle]
    have hne : rds ≠ [] := by
      intro hnil
      subst hnil
      simp at hle
    have := h.2 hne (by omega)
    simpa [grab_request, prepare_request_cfg] using this

/-- Witness for C1: one `302` hop with `Location: /n` under
`redirect_limit = 1` returns the final `200` document, with the hop
resolved against the pre-redirect URL. -/
theorem redirect_chain_bounded_witness :
    grab_request (fun a b => a ++ b) (request_cfg "http://x/" 1)
        ([⟨302, some "/n", ""⟩] ++ [⟨200, none, "ok"⟩])
      = .ok (⟨200, none, "ok"⟩, "http://x//n") := by
  have h := redirect_chain_bounded (fun a b => a ++ b) "http://x/" 1
    [⟨302, some "/n", ""⟩] ⟨200, none, "ok"⟩ (by decide) (by decide)
  rw [h]
  rfl

theorem cfg_get_merged_url (kwargs : GrabConfig) :
    cfg_get (Request.init_keys.map
        (fun k => (k, (kwargs.lookup k).getD .vnone))) "url"
      = cfg_get kwargs "url" := rfl

theorem cfg_get_merged_method (kwargs : GrabConfig) :
    cfg_get (Request.init_keys.map
        (fun k => (k, (kwargs.lookup k).getD .vnone))) "method"
      = cfg_get kwargs "method" := rfl

theorem cfg_get_set_method_follow (kwargs : GrabConfig) :
    cfg_get (dict_set (Request.init_keys.map
          (fun k => (k, (kwargs.lookup k).getD .vnone)))
        "method" (.vstr "GET")) "follow_location"
      = cfg_get kwargs "follow_location" := rfl

theorem create_from_merged_defaults (kwargs : GrabConfig) :
    Request.create_from_mapping
        (dict_set (dict_set (Request.init_keys.map
            (fun k => (k, (kwargs.lookup k).getD .vnone)))
          "method" (.vstr "GET")) "follow_location" (.vbool true))
      = ⟨(cfg_get kwargs "url").as_string, "GET", true,
          match cfg_get kwargs "redirect_limit" with
          | .vnat n => n
          | _ => default_redirect_limit⟩ := rfl

/-- C6: `Grab.request` fails with a misuse error — consuming no
transport response — whenever the request config holds a key outside
the recognized key set or no URL is set; with valid keys and a URL set,
preparation succeeds and defaults the method to `GET` and
`follow_location` to true when they are unset. -/
theorem request_misuse_and_defaults :
    (∀ (uj : String → String → String) (kwargs : GrabConfig)
        (responses : List Document) (p : String × CfgVal),
      kwargs.find? (fun q => !(Request.init_keys.contains q.1)) = some p →
      grab_request uj kwargs responses
        = .error (.misuse ("Invalid request parameter: " ++ p.1)))
    ∧ (∀ (uj : String → String → String) (kwargs : GrabConfig)
        (responses : List Document),
      kwargs.find? (fun q => !(Request.init_keys.contains q.1)) = none →
      cfg_get kwargs "url" = .vnone →
      grab_request uj kwargs responses
        = .error (.misuse "Request URL must be set"))
    ∧ (∀ (kwargs : GrabConfig) (u : String),
      kwargs.find? (fun q => !(Request.init_keys.contains q.1)) = none →
      cfg_get kwargs "url" = .vstr u →
      cfg_get kwargs "method" = .vnone →
      cfg_get kwargs "follow_location" = .vnone →
      ∃ req, prepare_request kwargs = .ok req ∧ req.url = u ∧
        req.method = "GET" ∧ req.follow_location = true) := by
  refine ⟨?_, ?_, ?_⟩
  · intro uj kwargs responses p hfind
    simp only [grab_request, prepare_request, merge_request_configs, hfind]
  · intro uj kwargs responses hfind hurl
    simp only [grab_request, prepare_request, merge_request_configs, hfind,
      cfg_get_merged_url, hurl]
    simp
  · intro kwargs u hfind hurl hmethod hfollow
    simp only [prepare_request, merge_request_configs, hfind,
      cfg_get_merged_url, hurl]
    rw [if_neg (by simp)]
    simp only [cfg_get_merged_method, hmethod, CfgVal.truthy,
      Bool.false_eq_true, if_false, cfg_get_set_method_follow, hfollow,
      eq_self_iff_true, if_true, create_from_merged_defaults, hurl,
      CfgVal.as_string]
    exact ⟨_, rfl, rfl, rfl, rfl⟩

/-- Witness for C6: a config with the unknown key `bad` is rejected
without touching the transport; a config with no URL is rejected; and a
config holding only a URL prepares a `GET` request that follows
redirects. -/
theorem request_misuse_and_defaults_witness :
    (grab_request (fun a _ => a) [("bad", .vnat 1)] []
        = .error (.misuse ("Invalid request parameter: " ++ "bad")))
    ∧ (grab_request (fun a _ => a) [("timeout", .vnat 9)] []
        = .error (.misuse "Request URL must be set"))
    ∧ (∃ req, prepare_request [("url", .vstr "http://e/")] = .ok req ∧
        req.url = "http://e/" ∧ req.method = "GET" ∧
        req.follow_location = true) :=
  ⟨request_misuse_and_defaults.1 (fun a _ => a) [("bad", .vnat 1)] []
      ("bad", .vnat 1) (by decide),
   request_misuse_and_defaults.2.1 (fun a _ => a) [("timeout", .vnat 9)] []
      (by decide) (by decide),
   request_misuse_and_defaults.2.2 [("url", .vstr "http://e/")] "http://e/"
      (by decide) (by decide) (by decide) (by decide)⟩

/-! ## Helper lemmas for cloning and pickling -/

theorem build_jar_go (l : List Cookie) :
    ∀ acc : List Cookie,
      (acc ++ l).Pairwise (fun a b => cookie_key a ≠ cookie_key b) →
      l.foldl set_cookie acc = acc ++ l := by
  induction l with
  | nil => intro acc _; simp
  | cons c tl ih =>
      intro acc hpw
      have hkeys : ∀ a ∈ acc, cookie_key a ≠ cookie_key c := by
        have := (List.pairwise_append.mp hpw).2.2
        intro a ha
        exact this a ha c (by simp)
      have hset : set_cookie acc c = acc ++ [c] := by
        unfold set_cookie
        congr 1
        apply List.filter_eq_self.mpr
        intro a ha
        simpa using hkeys a ha
      have hpw2 : ((acc ++ [c]) ++ tl).Pairwise
          (fun a b => cookie_key a ≠ cookie_key b) := by
        simpa [List.append_assoc] using hpw
      calc (c :: tl).foldl set_cookie acc
          = tl.foldl set_cookie (set_cookie acc c) := rfl
        _ = tl.foldl set_cookie (acc ++ [c]) := by rw [hset]
        _ = (acc ++ [c]) ++ tl := ih (acc ++ [c]) hpw2
        _ = acc ++ (c :: tl) := by simp

theorem build_jar_id {jar : List Cookie} (h : jar_wf jar) :
    build_jar jar = jar := by
  simpa using build_jar_go jar [] (by simpa [jar_wf] using h)

theorem copy_config_eq (c : GrabConfig) : copy_config c = c := by
  simp [copy_config]

/-! ## Claim theorems for cloning and pickling -/

theorem getD_set_ne {A : Type} [Inhabited A] (l : List A) (i j : Nat)
    (h : i ≠ j) (a : A) :
    (l.set i a).getD j default = l.getD j default := by
  simp [List.getD_eq_getElem?_getD, List.getElem?_set_ne h]

theorem heap_set_cookie_other (heap2 : List GrabObj) (a b : Nat)
    (h : a ≠ b) (c : Cookie) :
    (heap_set_cookie heap2 a c).getD b default = heap2.getD b default := by
  simp only [heap_set_cookie]
  exact getD_set_ne heap2 a b h _

theorem heap_setup_other (heap2 : List GrabObj) (a b : Nat)
    (h : a ≠ b) (key : String) (v : CfgVal) :
    (heap_setup heap2 a key v).getD b default = heap2.getD b default := by
  simp only [heap_setup]
  by_cases hk : ((heap2.getD a default).config.any (fun p => p.1 == key))
      = true
  · simp only [hk, if_true]
    exact getD_set_ne heap2 a b h _
  · rw [if_neg hk]

/-- C7: `clone()` allocates a fresh client object whose config entries
and jar cookies equal the original's, and mutating the jar or config of
either client through its own reference leaves the other client's
object — jar and config — unchanged. -/
theorem clone_independent (heap : List GrabObj) (i : Nat)
    (hi : i < heap.length)
    (hwf : jar_wf (heap.getD i default).cookies) :
    ((heap_clone heap i).2 ≠ i)
    ∧ (((heap_clone heap i).1.getD (heap_clone heap i).2 default).cookies
        = (heap.getD i default).cookies)
    ∧ (((heap_clone heap i).1.getD (heap_clone heap i).2 default).config
        = (heap.getD i default).config)
    ∧ ((heap_clone heap i).1.getD i default = heap.getD i default)
    ∧ (∀ c, (heap_set_cookie (heap_clone heap i).1 (heap_clone heap i).2
          c).getD i default
        = (heap_clone heap i).1.getD i default)
    ∧ (∀ c, (heap_set_cookie (heap_clone heap i).1 i c).getD
          (heap_clone heap i).2 default
        = (heap_clone heap i).1.getD (heap_clone heap i).2 default)
    ∧ (∀ key v, (heap_setup (heap_clone heap i).1 (heap_clone heap i).2
          key v).getD i default
        = (heap_clone heap i).1.getD i default)
    ∧ (∀ key v, (heap_setup (heap_clone heap i).1 i key v).getD
          (heap_clone heap i).2 default
        = (heap_clone heap i).1.getD (heap_clone heap i).2 default) := by
  have hne : heap.length ≠ i := by omega
  have hne2 : i ≠ heap.length := fun h => hne h.symm
  have hfresh : ∀ x : GrabObj,
      (heap ++ [x]).getD heap.length default = x := by
    intro x
    simp [List.getD_eq_getElem?_getD]
  refine ⟨hne, ?_, ?_, List.getD_append heap _ default i hi, ?_, ?_, ?_, ?_⟩
  · simp only [heap_clone, hfresh]
    exact build_jar_id hwf
  · simp only [heap_clone, hfresh]
    exact copy_config_eq _
  · intro c
    exact heap_set_cookie_other _ _ _ hne c
  · intro c
    exact heap_set_cookie_other _ _ _ hne2 c
  · intro key v
    exact heap_setup_other _ _ _ hne key v
  · intro key v
    exact heap_setup_other _ _ _ hne2 key v

/-- Witness for C7 at a one-object heap: the clone lands at a fresh
index, and setting a cookie through the clone leaves the original
object untouched. -/
theorem clone_independent_witness :
    ((heap_clone [⟨[("reuse_cookies", .vbool true)],
        [⟨"n", "v", "d", "/", false, false⟩]⟩] 0).2 ≠ 0)
    ∧ ((heap_set_cookie (heap_clone [⟨[("reuse_cookies", .vbool true)],
          [⟨"n", "v", "d", "/", false, false⟩]⟩] 0).1
        (heap_clone [⟨[("reuse_cookies", .vbool true)],
          [⟨"n", "v", "d", "/", false, false⟩]⟩] 0).2
        ⟨"n2", "v2", "d2", "/", false, false⟩).getD 0 default
      = (heap_clone [⟨[("reuse_cookies", .vbool true)],
          [⟨"n", "v", "d", "/", false, false⟩]⟩] 0).1.getD 0 default) :=
  ⟨(clone_independent [⟨[("reuse_cookies", .vbool true)],
        [⟨"n", "v", "d", "/", false, false⟩]⟩] 0 (by decide)
      (by simp [jar_wf])).1,
   (clone_independent [⟨[("reuse_cookies", .vbool true)],
        [⟨"n", "v", "d", "/", false, false⟩]⟩] 0 (by decide)
      (by simp [jar_wf])).2.2.2.2.1 ⟨"n2", "v2", "d2", "/", false, false⟩⟩

/-- C8: deserialising the serialised state of a client yields a client
with the same config and the same cookie set keyed by
`(domain, path, name, value)`; deserialising a state entry whose key is
not a recognized slot raises a reconstruction error. -/
theorem pickle_roundtrip (g g0 : GrabObj) (hwf : jar_wf g.cookies) :
    (∃ g1, grab_setstate g0 (grab_getstate g) = .ok g1
      ∧ g1.config = g.config
      ∧ ∀ q, q ∈ g1.cookies.map cookie_quad ↔ q ∈ g.cookies.map cookie_quad)
    ∧ (∀ (key : String) (v : SlotVal), key ≠ "config" → key ≠ "transport" →
        key ≠ "cookies" → key ≠ "_cookies_items" →
        grab_setstate g0 [(key, v)]
          = .error ("Key " ++ key ++ " is not in __slots__")) := by
  constructor
  · refine ⟨⟨g.config, g.cookies⟩, ?_, rfl, fun q => Iff.rfl⟩
    obtain ⟨c0, k0⟩ := g0
    have hb : build_jar g.cookies = g.cookies := build_jar_id hwf
    simp [grab_getstate, grab_setstate, set_slot, SlotVal.as_config,
      SlotVal.as_cookie_list, hb]
  · intro key v h1 h2 h3 h4
    simp [grab_setstate, h1, h2, h3, h4]

/-- Witness for C8 at a concrete client: the round trip through
`__getstate__` and `__setstate__` restores the config and the cookie,
and the unknown state key `bogus` is rejected. -/
theorem pickle_roundtrip_witness :
    (∃ g1, grab_setstate ⟨[], []⟩ (grab_getstate
        ⟨[("reuse_cookies", .vbool true)],
         [⟨"n", "v", "d", "/", false, false⟩]⟩) = .ok g1
      ∧ g1.config = (⟨[("reuse_cookies", .vbool true)],
          [⟨"n", "v", "d", "/", false, false⟩]⟩ : GrabObj).config
      ∧ ∀ q, q ∈ g1.cookies.map cookie_quad ↔
          q ∈ (⟨[("reuse_cookies", .vbool true)],
            [⟨"n", "v", "d", "/", false, false⟩]⟩ : GrabObj).cookies.map
              cookie_quad)
    ∧ grab_setstate ⟨[], []⟩ [("bogus", .transport_val)]
        = .error ("Key " ++ "bogus" ++ " is not in __slots__") :=
  ⟨(pickle_roundtrip ⟨[("reuse_cookies", .vbool true)],
        [⟨"n", "v", "d", "/", false, false⟩]⟩ ⟨[], []⟩
      (by simp [jar_wf])).1,
   (pickle_roundtrip ⟨[("reuse_cookies", .vbool true)],
        [⟨"n", "v", "d", "/", false, false⟩]⟩ ⟨[], []⟩
      (by simp [jar_wf])).2 "bogus" .transport_val
      (by decide) (by decide) (by decide) (by decide)⟩
